import Mathlib

/-!
Verification of `futures-join-all` (src/main.rs), a command-line fan-out/fan-in
demonstration.  The program parses each positional argument as a `u64` count `N`
(help flags `-h`/`--help` print usage and exit 0; a parse failure prints an
error naming the bad token and exits 1), and for each `N` runs `task 1 .. task N`
concurrently via `futures::future::join_all` inside `block_on`, collecting the
ordered results.

Shallow embedding choices:
- `rand::thread_rng().gen_range(1, 11)` is modelled by `gen_range 1 11 r`
  where `r` is the raw random draw supplied by an oracle `rng : Nat -> Nat`;
  `gen_range low high r = low + r % (high - low)` is the uniform reduction of a
  raw draw into the half-open range `[low, high)`.
- The nondeterministic completion order of the futures is an explicit list
  `order` of 0-based future indices (a permutation of `List.range num`); the
  join barrier fills one result slot per completion event and the collected
  output reads the slots back in original index order, exactly as
  `join_all` keeps one output slot per input future.
- Console output is modelled as a trace of `Event`s: each task prints its
  `sleeping` line when first polled (in input order) and its `slept` line when
  its timer fires (in completion order), and each driver run ends by printing
  the collected `results` line.
-/

/-- Model of `rand` 0.x `gen_range(low, high)`: reduce a raw random draw `r`
uniformly into the half-open integer range `[low, high)`. -/
def gen_range (low high r : Nat) : Nat := low + r % (high - low)

/-- Embedding of `async fn task(n: u64) -> (u64, u64)` from src/main.rs lines
71-82, with the raw random draw `r` made explicit: draw
`secs = gen_range 1 11 r` (so 1-10 inclusive) and return `(n, secs)`. -/
def task (n r : Nat) : Nat × Nat := (n, gen_range 1 11 r)

/-- One console event of the program. -/
inductive Event where
  /-- the line `println!("task {} sleeping {}", n, secs)` -/
  | sleeping (n secs : Nat) : Event
  /-- the line `println!("task {} slept {}", n, secs)` -/
  | slept (n secs : Nat) : Event
  /-- the line `println!("\nresults = {:?}\n", results)` -/
  | results (rs : List (Nat × Nat)) : Event
deriving DecidableEq

/-- The console trace of one execution of `task n` with raw random draw `r`:
the start line `task n sleeping secs` printed before the suspension and the
completion line `task n slept secs` printed after it. -/
def task_trace (n r : Nat) : List Event :=
  [Event.sleeping n (gen_range 1 11 r), Event.slept n (gen_range 1 11 r)]

/-- The result slots of one `join_all` barrier, filled in completion order:
the completion event of future `i` writes `f i` into slot `i`. -/
def fill (f : Nat → Nat × Nat) (order : List Nat) : List (Nat × (Nat × Nat)) :=
  order.map (fun i => (i, f i))

/-- Read the filled slots back in original index order, as `join_all` does
when every future has completed. -/
def readSlots (slots : List (Nat × (Nat × Nat))) (num : Nat) : List (Nat × Nat) :=
  (List.range num).filterMap (fun i => (slots.find? (fun p => p.1 == i)).map Prod.snd)

/-- Embedding of
`block_on(async { join_all((1..=num).map(|x| task(x))).await })` from
src/main.rs line 138: future `i` (0-based) is `task (i+1)` with raw random
draw `rng i`; the futures complete in the order given by `order` and the
collected output is read back in index order. -/
def join_all (rng : Nat → Nat) (num : Nat) (order : List Nat) : List (Nat × Nat) :=
  readSlots (fill (fun i => task (i + 1) (rng i)) order) num

/-- The terminal outcome of argument processing in `main`
(src/main.rs lines 89-121). -/
inductive CliOutcome where
  /-- the function `usage()` was called: usage text on the error stream,
  `exit(0)`. -/
  | usageExit : CliOutcome
  /-- a parse failure on token `tok`: error message on the error stream
  naming `tok`, `exit(1)`. -/
  | parseError (tok : String) : CliOutcome
  /-- all arguments parsed; `main` proceeds to run one driver batch per
  parsed number. -/
  | run (nums : List Nat) : CliOutcome
deriving DecidableEq

/-- Process exit status of each CLI outcome (`exit(0)` in `usage`, `exit(1)`
on parse failure, normal return otherwise). -/
def exit_code : CliOutcome → Nat
  | CliOutcome.usageExit => 0
  | CliOutcome.parseError _ => 1
  | CliOutcome.run _ => 0

/-- The check `["-h", "--help"].contains(&arg.as_str())` from src/main.rs
line 104. -/
def is_help (arg : String) : Bool := arg == "-h" || arg == "--help"

/-- A leading `+` sign is consumed by Rust's unsigned integer parser. -/
def strip_plus : List Char → List Char
  | '+' :: rest => rest
  | cs => cs

/-- Parse a nonempty all-digit character list as a natural number. -/
def parse_digits (cs : List Char) : Option Nat :=
  if cs.isEmpty then none
  else if cs.all Char.isDigit then
    some (cs.foldl (fun a c => a * 10 + (c.toNat - 48)) 0)
  else none

/-- Model of `x.parse::<u64>()`: an optional leading `+`, then one or more
ASCII digits, and the value must fit in 64 bits; anything else (including a
leading `-` and out-of-range values) is a parse error. -/
def parse_u64 (s : String) : Option Nat :=
  match parse_digits (strip_plus s.data) with
  | some v => if v < 2 ^ 64 then some v else none
  | none => none

/-- The parse-failure message of src/main.rs line 117, which names the
offending text. -/
def err_msg (tok : String) : String :=
  "ERROR: Failed to parse integer number of tasks from `" ++ tok ++ "`!"

/-- Error-stream line printed by each CLI outcome before the workload phase
(the usage text is abbreviated to one line here; only the parse-failure
message content matters to the claims). -/
def cli_err_lines : CliOutcome → List String
  | CliOutcome.usageExit => ["Usage: `futures-join-all [OPTIONS] N`"]
  | CliOutcome.parseError tok => [err_msg tok]
  | CliOutcome.run _ => []

/-- Argument processing of `main` (src/main.rs lines 102-121), applied to the
arguments after the program name (`args().skip(1)`): a help flag anywhere
exits with usage before parsing; an empty argument list exits with usage;
otherwise the arguments are parsed left to right and the first failure ends
the process with a parse error naming that argument; if all parse, `main`
runs one batch per parsed number. -/
def cli (args : List String) : CliOutcome :=
  if args.any is_help then CliOutcome.usageExit
  else if args.length < 1 then CliOutcome.usageExit
  else
    match args.find? (fun x => (parse_u64 x).isNone) with
    | some tok => CliOutcome.parseError tok
    | none => CliOutcome.run (args.filterMap parse_u64)

/-- The console trace of one driver run with count `num`: every future prints
its `sleeping` line when first polled, in input order (the first poll of
`join_all` polls the futures in order); the `slept` lines appear in completion
order; and after the barrier `main` prints the one `results` line with the
collected ordered sequence (src/main.rs lines 138 and 152). -/
def run_trace (rng : Nat → Nat) (num : Nat) (order : List Nat) : List Event :=
  ((List.range num).map (fun i => Event.sleeping (i + 1) (gen_range 1 11 (rng i))))
    ++ (order.map (fun i => Event.slept (i + 1) (gen_range 1 11 (rng i))))
    ++ [Event.results (join_all rng num order)]

/-- The loop `for num in nums` of `main` (src/main.rs lines 123-154): run `k`
uses the raw draws `rng k` and completion order `order k`, and each iteration
runs `block_on`, which returns only when its whole batch is collected, before
the next iteration starts. -/
def main_loop (rng : Nat → Nat → Nat) (order : Nat → List Nat) :
    List Nat → Nat → List Event
  | [], _ => []
  | num :: rest, k => run_trace (rng k) num (order k) ++ main_loop rng order rest (k + 1)

-- Sanity checks of the embedding on concrete inputs.
example : task 3 8 = (3, 9) := by decide
example : join_all (fun i => i) 3 [2, 0, 1] = [(1, 1), (2, 2), (3, 3)] := by decide
example : join_all (fun _ => 0) 0 [] = [] := by decide
example : cli ["10"] = CliOutcome.run [10] := by decide
example : cli ["abc"] = CliOutcome.parseError "abc" := by decide
example : cli ["3", "abc", "4"] = CliOutcome.parseError "abc" := by decide
example : cli ["3", "-h"] = CliOutcome.usageExit := by decide
example : cli [] = CliOutcome.usageExit := by decide
example : cli ["-5"] = CliOutcome.parseError "-5" := by decide
example : cli ["+7"] = CliOutcome.run [7] := by decide
example : cli ["18446744073709551615"] = CliOutcome.run [18446744073709551615] := by decide
example : cli ["18446744073709551616"] = CliOutcome.parseError "18446744073709551616" := by
  decide

/-- Looking up slot `i` among slots filled from `order` finds `f i`, as soon
as future `i` completed at some point of `order`. -/
lemma find_fill (f : Nat → Nat × Nat) (order : List Nat) (i : Nat) (hi : i ∈ order) :
    (fill f order).find? (fun p => p.1 == i) = some (i, f i) := by
  induction order with
  | nil => cases hi
  | cons j rest ih =>
    by_cases hj : j = i
    · subst hj
      simp [fill]
    · rcases List.mem_cons.mp hi with h | h
      · exact absurd h.symm hj
      · have hne : ((j, f j).1 == i) = false := by
          simp [hj]
        simpa [fill, List.find?_cons_of_neg, hne] using ih h

/-- Reading the slots back in index order recovers the results in input
order, whenever every future index below `num` has completed. -/
lemma readSlots_fill (f : Nat → Nat × Nat) (num : Nat) (order : List Nat)
    (h : ∀ i, i < num → i ∈ order) :
    readSlots (fill f order) num = (List.range num).map f := by
  unfold readSlots
  rw [List.filterMap_eq_map_iff_forall_eq_some.mpr]
  intro i hi
  rw [find_fill f order i (h i (List.mem_range.mp hi))]
  rfl

/-- The central ordered-join fact: if the completion order is any permutation
of the future indices, the collected output is the tasks' results in input
order. -/
lemma join_all_eq (rng : Nat → Nat) (num : Nat) (order : List Nat)
    (hperm : order.Perm (List.range num)) :
    join_all rng num order = (List.range num).map (fun i => task (i + 1) (rng i)) := by
  apply readSlots_fill
  intro i hi
  exact hperm.mem_iff.mpr (List.mem_range.mpr hi)

/-- C1 Order invariance: for every count `num`, every assignment `rng` of raw
random draws (hence of sleep durations) and every completion order that is a
permutation of the future indices, the k-th element (1-based) of the collected
result sequence has first component `k`. -/
theorem order_invariance (num : Nat) (rng : Nat → Nat) (order : List Nat) (k : Nat)
    (hperm : order.Perm (List.range num)) (hk1 : 1 ≤ k) (hk2 : k ≤ num) :
    ((join_all rng num order)[k - 1]?).map Prod.fst = some k := by
  rw [join_all_eq rng num order hperm]
  have hlt : k - 1 < num := by omega
  rw [List.getElem?_map, List.getElem?_range hlt]
  simp [task]
  omega

/-- Witness for `order_invariance` at `num = 3`, completion order `[2, 0, 1]`,
`k = 2`. -/
theorem order_invariance_witness :
    ((join_all (fun i => i) 3 [2, 0, 1])[2 - 1]?).map Prod.fst = some 2 :=
  order_invariance 3 (fun i => i) [2, 0, 1] 2 (by decide) (by decide) (by decide)

/-- C2 Cardinality: for every count `num` and every completion order that is a
permutation of the future indices, the collected result sequence has length
exactly `num`; in particular `num = 0` yields the empty result sequence. -/
theorem cardinality (num : Nat) (rng : Nat → Nat) (order : List Nat)
    (hperm : order.Perm (List.range num)) :
    (join_all rng num order).length = num ∧
      (num = 0 → join_all rng num order = []) := by
  rw [join_all_eq rng num order hperm]
  constructor
  · simp
  · intro h
    subst h
    rfl

/-- Witness for `cardinality` at `num = 0` with the empty completion order. -/
theorem cardinality_witness :
    (join_all (fun _ => 0) 0 []).length = 0 ∧
      (0 = 0 → join_all (fun _ => 0) 0 [] = []) :=
  cardinality 0 (fun _ => 0) [] (by decide)

/-- C4 Workload-unit result: for every input `n` and raw random draw `r`, the
task draws `secs = gen_range 1 11 r` with `1 ≤ secs ≤ 10`, returns exactly the
pair `(n, secs)`, and its console trace is the start message announcing the
drawn duration followed by the completion message; moreover `gen_range 1 11`
is uniform on 1-10: the ten residues of the raw draw map bijectively onto
`[1, ..., 10]`. -/
theorem task_result (n r : Nat) :
    (task n r).1 = n ∧
      1 ≤ (task n r).2 ∧ (task n r).2 ≤ 10 ∧
      task_trace n r = [Event.sleeping n (task n r).2, Event.slept n (task n r).2] ∧
      (List.range 10).map (fun j => gen_range 1 11 j) = (List.range 10).map (fun j => j + 1) := by
  refine ⟨rfl, ?_, ?_, rfl, by decide⟩
  · simp [task, gen_range]
  · have h : r % 10 < 10 := Nat.mod_lt r (by norm_num)
    simp only [task, gen_range]
    omega

/-- C5 Determinism of shape: two runs with the same count `num` but possibly
different random draws and different completion orders produce result
sequences with the same ordered list of first components, namely `1..num`;
only the second components (durations) may differ. -/
theorem shape_determinism (num : Nat) (rng₁ rng₂ : Nat → Nat) (order₁ order₂ : List Nat)
    (h₁ : order₁.Perm (List.range num)) (h₂ : order₂.Perm (List.range num)) :
    (join_all rng₁ num order₁).map Prod.fst = (join_all rng₂ num order₂).map Prod.fst ∧
      (join_all rng₁ num order₁).map Prod.fst = (List.range num).map (fun i => i + 1) := by
  rw [join_all_eq rng₁ num order₁ h₁, join_all_eq rng₂ num order₂ h₂]
  constructor <;> simp [task]

/-- Witness for `shape_determinism` at `num = 2` with distinct draws and
opposite completion orders. -/
theorem shape_determinism_witness :
    (join_all (fun i => i) 2 [0, 1]).map Prod.fst
        = (join_all (fun i => i + 5) 2 [1, 0]).map Prod.fst ∧
      (join_all (fun i => i) 2 [0, 1]).map Prod.fst = (List.range 2).map (fun i => i + 1) :=
  shape_determinism 2 (fun i => i) (fun i => i + 5) [0, 1] [1, 0] (by decide) (by decide)

/-- C6 Parse failure: if no help flag is present and some positional argument
fails to parse as a `u64`, then argument processing ends with a parse error:
some offending argument is named in the error-stream message, the exit status
is 1, and no workload phase is reached - not even for the other, valid
arguments of the same invocation. -/
theorem parse_failure (args : List String) (x : String)
    (hx : x ∈ args) (hbad : parse_u64 x = none)
    (hnohelp : ∀ a ∈ args, is_help a = false) :
    ∃ tok, tok ∈ args ∧ parse_u64 tok = none ∧
      cli args = CliOutcome.parseError tok ∧
      exit_code (cli args) = 1 ∧
      cli_err_lines (cli args) = [err_msg tok] ∧
      ∀ nums, cli args ≠ CliOutcome.run nums := by
  have hany : args.any is_help = false := by
    simp only [List.any_eq_false]
    intro a ha
    simp [hnohelp a ha]
  have hlen : ¬args.length < 1 := by
    have hne : args ≠ [] := by rintro rfl; cases hx
    have := List.length_pos.mpr hne
    omega
  have hfind : (args.find? (fun x => (parse_u64 x).isNone)).isSome := by
    rw [List.find?_isSome]
    exact ⟨x, hx, by simp [hbad]⟩
  obtain ⟨tok, htok⟩ := Option.isSome_iff_exists.mp hfind
  have htokmem : tok ∈ args := List.mem_of_find?_eq_some htok
  have htokbad : parse_u64 tok = none := by
    have := List.find?_some htok
    simpa using this
  have hcli : cli args = CliOutcome.parseError tok := by
    simp [cli, hany, hlen, htok]
  exact ⟨tok, htokmem, htokbad, hcli, by simp [hcli, exit_code],
    by simp [hcli, cli_err_lines], fun nums => by simp [hcli]⟩

/-- Witness for `parse_failure` on the invocation `futures-join-all 3 abc 4`:
the valid arguments 3 and 4 do not save the run. -/
theorem parse_failure_witness :
    ∃ tok, tok ∈ ["3", "abc", "4"] ∧ parse_u64 tok = none ∧
      cli ["3", "abc", "4"] = CliOutcome.parseError tok ∧
      exit_code (cli ["3", "abc", "4"]) = 1 ∧
      cli_err_lines (cli ["3", "abc", "4"]) = [err_msg tok] ∧
      ∀ nums, cli ["3", "abc", "4"] ≠ CliOutcome.run nums :=
  parse_failure ["3", "abc", "4"] "abc" (by decide) (by decide) (by decide)

/-- C7 Help flag: if any argument is `-h` or `--help`, argument processing
ends with usage text and exit status 0, before any workload runs. -/
theorem help_flag (args : List String) (a : String)
    (ha : a ∈ args) (hh : is_help a = true) :
    cli args = CliOutcome.usageExit ∧ exit_code (cli args) = 0 ∧
      ∀ nums, cli args ≠ CliOutcome.run nums := by
  have hany : args.any is_help = true := List.any_eq_true.mpr ⟨a, ha, hh⟩
  have hcli : cli args = CliOutcome.usageExit := by
    simp [cli, hany]
  exact ⟨hcli, by simp [hcli, exit_code], fun nums => by simp [hcli]⟩

/-- Witness for `help_flag` on the invocation `futures-join-all 3 --help`. -/
theorem help_flag_witness :
    cli ["3", "--help"] = CliOutcome.usageExit ∧ exit_code (cli ["3", "--help"]) = 0 ∧
      ∀ nums, cli ["3", "--help"] ≠ CliOutcome.run nums :=
  help_flag ["3", "--help"] "--help" (by decide) (by decide)

/-- C8 No-argument invocation: with no positional arguments and no help flag,
usage text is printed and the process exits with status 0, without running any
workload. -/
theorem no_arguments :
    cli [] = CliOutcome.usageExit ∧ exit_code (cli []) = 0 ∧
      ∀ nums, cli [] ≠ CliOutcome.run nums := by
  refine ⟨by decide, by decide, fun nums => by simp [cli]⟩

/-- C10 Implicit argument-domain bound: the `u64` parser only ever yields
values below `2 ^ 64`, so every count reaching the workload phase is at most
`2 ^ 64 - 1`; a negative literal such as `-5` and an out-of-range literal such
as `2 ^ 64` itself are rejected with the parse-error outcome and exit
status 1. -/
theorem u64_bound :
    (∀ s n, parse_u64 s = some n → n < 2 ^ 64) ∧
      (∀ args nums, cli args = CliOutcome.run nums → ∀ n ∈ nums, n < 2 ^ 64) ∧
      cli ["-5"] = CliOutcome.parseError "-5" ∧
      exit_code (cli ["-5"]) = 1 ∧
      cli ["18446744073709551616"] = CliOutcome.parseError "18446744073709551616" := by
  have hparse : ∀ s n, parse_u64 s = some n → n < 2 ^ 64 := by
    intro s n h
    unfold parse_u64 at h
    cases hpd : parse_digits (strip_plus s.data) with
    | none => rw [hpd] at h; cases h
    | some v =>
      rw [hpd] at h
      dsimp only at h
      split at h
      · cases h
        assumption
      · cases h
  refine ⟨hparse, ?_, by decide, by decide, by decide⟩
  intro args nums hrun n hn
  unfold cli at hrun
  split at hrun
  · cases hrun
  · split at hrun
    · cases hrun
    · split at hrun
      · cases hrun
      · cases hrun
        obtain ⟨s, _, hs⟩ := List.mem_filterMap.mp hn
        exact hparse s n hs

/-- Witness for `u64_bound`: its parser-bound conjunct applied at the
concrete parse of the token 7. -/
theorem u64_bound_witness : (7 : Nat) < 2 ^ 64 :=
  u64_bound.1 "7" 7 (by decide)

/-- The trace of consecutive batches is the concatenation of the per-batch
traces. -/
lemma main_loop_append (rng : Nat → Nat → Nat) (order : Nat → List Nat)
    (l₁ l₂ : List Nat) (k : Nat) :
    main_loop rng order (l₁ ++ l₂) k
      = main_loop rng order l₁ k ++ main_loop rng order l₂ (k + l₁.length) := by
  induction l₁ generalizing k with
  | nil => simp [main_loop]
  | cons m rest ih =>
    have harith : k + (m :: rest).length = (k + 1) + rest.length := by
      simp only [List.length_cons]
      omega
    calc main_loop rng order ((m :: rest) ++ l₂) k
        = run_trace (rng k) m (order k) ++ main_loop rng order (rest ++ l₂) (k + 1) := rfl
      _ = run_trace (rng k) m (order k)
            ++ (main_loop rng order rest (k + 1)
                  ++ main_loop rng order l₂ ((k + 1) + rest.length)) := by
          rw [ih (k + 1)]
      _ = main_loop rng order (m :: rest) k
            ++ main_loop rng order l₂ (k + (m :: rest).length) := by
          rw [harith]
          simp [main_loop, List.append_assoc]

/-- C9 Sequential batches: in a multi-argument invocation, the trace of the
whole workload phase decomposes, around any chosen argument, into the full
traces of the earlier runs, then that run's complete trace, then the later
runs - so runs happen strictly in argument order and never overlap; moreover
every run's trace ends with its printed `results` line, so a run's results
are collected and printed before the next run starts. -/
theorem sequential_batches (rng : Nat → Nat → Nat) (order : Nat → List Nat)
    (ns₁ : List Nat) (num : Nat) (ns₂ : List Nat) (k : Nat) :
    main_loop rng order (ns₁ ++ num :: ns₂) k
      = main_loop rng order ns₁ k
        ++ run_trace (rng (k + ns₁.length)) num (order (k + ns₁.length))
        ++ main_loop rng order ns₂ (k + ns₁.length + 1) ∧
      (run_trace (rng (k + ns₁.length)) num (order (k + ns₁.length))).getLast?
        = some (Event.results
            (join_all (rng (k + ns₁.length)) num (order (k + ns₁.length)))) := by
  constructor
  · rw [main_loop_append rng order ns₁ (num :: ns₂) k]
    simp [main_loop, List.append_assoc]
  · unfold run_trace
    rw [List.getLast?_concat]
